import Mathlib

/-!
Verification of the DICOM preprocessing core of the
RSNA-Intracranial-Aneurysm-Detection repository.

The development shallowly embeds the two core components and the pipeline
that drives them:

* `src/preprocessing/dicom_loader.py` (`load_dicom_series`): slice ordering
  by a per-slice fallback position key, int16 casting, stacking, and
  metadata/spacing derivation.
* `src/preprocessing/resampling.py` (`resample_isotropic`): dimensionality
  normalization, zoom-factor computation and the shape law of
  `scipy.ndimage.zoom` (output extent `round(extent * factor)`, Python
  banker's rounding).
* `src/preprocessing/pipeline.py` (`preprocess_series`): the cache-hit fast
  path and the cold normalize-then-resample path.

Machine floats are embedded as exact rationals (`ℚ`); pixel values as
integers (`ℤ`) with the int16 cast made explicit as wraparound modulo 2^16.
Python `sorted` is embedded as a stable ascending sort (`List.insertionSort`
with the non-strict key order; any stable sort has the same graph).
Exceptions are embedded as `Except` values whose error constructors name the
distinct raise sites of the source.
-/

namespace RSNA

/-- One DICOM file as the loader sees it: the header fields
`load_dicom_series` probes with `hasattr`/`getattr` (absent fields are
`none`) plus the decoded `pixel_array` as a row-major list of rows. -/
structure Dataset where
  imagePositionPatient : Option (ℚ × ℚ × ℚ)
  sliceLocation : Option ℚ
  instanceNumber : Option ℚ
  pixelData : List (List ℤ)
  sopInstanceUID : String
  pixelSpacing : Option (ℚ × ℚ)
  sliceThickness : Option ℚ
  spacingBetweenSlices : Option ℚ
  modality : Option String
  seriesInstanceUID : Option String
  patientID : Option String
deriving DecidableEq, Repr

/-- The per-slice ordering key `z` of `load_dicom_series` (dicom_loader.py
lines 46-57): the third component of `ImagePositionPatient` if present, else
`SliceLocation`, else `InstanceNumber`, else the constant `0.0`. -/
def positionKey (ds : Dataset) : ℚ :=
  match ds.imagePositionPatient with
  | some (_, _, z) => z
  | none =>
    match ds.sliceLocation with
    | some l => l
    | none =>
      match ds.instanceNumber with
      | some n => n
      | none => 0

/-- The sort order used by `sorted(instances, key=lambda x: x["z"])`:
non-strict comparison of position keys. -/
def zLE (a b : Dataset) : Prop := positionKey a ≤ positionKey b

instance : DecidableRel zLE := fun a b =>
  inferInstanceAs (Decidable (positionKey a ≤ positionKey b))

instance : IsTotal Dataset zLE := ⟨fun a b => le_total (positionKey a) (positionKey b)⟩

instance : IsTrans Dataset zLE := ⟨fun _ _ _ h₁ h₂ => le_trans h₁ h₂⟩

/-- Python's `sorted` with key `x["z"]`: a stable ascending sort. -/
def sortByZ (files : List Dataset) : List Dataset := List.insertionSort zLE files

/-- The numpy `astype(np.int16)` cast on one value: wraparound into
`[-32768, 32767]` (C-style truncating conversion). -/
def int16 (v : ℤ) : ℤ := (v + 32768) % 65536 - 32768

/-- The numpy `astype(np.int16)` cast applied elementwise to one slice
(`inst["dataset"].pixel_array.astype(np.int16)`, dicom_loader.py line 75). -/
def castSlice (p : List (List ℤ)) : List (List ℤ) := p.map (fun row => row.map int16)

/-- The shape of a 2D array as numpy compares it: the number of rows
together with the length profile of the rows (for a rectangular `H × W`
array this is `(H, replicate H W)`). -/
def shapeProfile (p : List (List ℤ)) : ℕ × List ℕ := (p.length, p.map List.length)

/-- Errors in the assembler, one constructor per raise site:
`emptySeries` is the `FileNotFoundError` for a directory with no `.dcm`
files (dicom_loader.py line 39); `inconsistentShape` is the `ValueError`
`np.stack` raises when the slices disagree on height or width
(dicom_loader.py line 79). -/
inductive LoadError where
  | emptySeries
  | inconsistentShape
deriving DecidableEq, Repr

/-- `np.stack(slices, axis=0)` (dicom_loader.py line 79): succeeds with the
slices as the volume's planes exactly when all slices share the shape of the
first; otherwise raises, which the spec types as `InconsistentShapeError`.
The empty case cannot be reached because the loader rejects empty series
first. -/
def stack (ss : List (List (List ℤ))) : Except LoadError (List (List (List ℤ))) :=
  match ss with
  | [] => .error .emptySeries
  | s0 :: rest =>
    if rest.all (fun s => decide (shapeProfile s = shapeProfile s0)) then .ok (s0 :: rest)
    else .error .inconsistentShape

/-- Through-plane spacing fallback (dicom_loader.py lines 86-95):
`SliceThickness` if present, else `SpacingBetweenSlices` if present,
else the default `1.0`. -/
def throughPlaneSpacing (ds0 : Dataset) : ℚ :=
  match ds0.sliceThickness with
  | some t => t
  | none =>
    match ds0.spacingBetweenSlices with
    | some s => s
    | none => 1

/-- The metadata dictionary built by `load_dicom_series`
(dicom_loader.py lines 97-105). -/
structure Metadata where
  pixelSpacing : ℚ × ℚ
  sliceSpacing : ℚ
  sliceLocations : List ℚ
  sopInstanceUIDs : List String
  modality : String
  seriesInstanceUID : Option String
  patientID : Option String
deriving DecidableEq, Repr

/-- Metadata as derived from the first slice `ds0` of the sorted instance
list (dicom_loader.py lines 82-105): `PixelSpacing` defaults to `(1, 1)`,
`Modality` to "UNKNOWN", identifiers to `None`. -/
def mkMetadata (ds0 : Dataset) (instances : List Dataset) : Metadata where
  pixelSpacing := ds0.pixelSpacing.getD (1, 1)
  sliceSpacing := throughPlaneSpacing ds0
  sliceLocations := instances.map positionKey
  sopInstanceUIDs := instances.map (fun ds => ds.sopInstanceUID)
  modality := ds0.modality.getD "UNKNOWN"
  seriesInstanceUID := ds0.seriesInstanceUID
  patientID := ds0.patientID

/-- The pair `load_dicom_series` returns: the stacked int16 volume
(depth, height, width as nested lists) and the metadata dictionary. -/
structure LoadResult where
  volume : List (List (List ℤ))
  metadata : Metadata
deriving DecidableEq, Repr

/-- Assembly of the already-sorted instance list: cast each slice to int16,
stack, and derive metadata from the first sorted slice (dicom_loader.py
lines 72-107). The empty case is unreachable from `load_dicom_series`. -/
def assembleSorted (instances : List Dataset) : Except LoadError LoadResult :=
  match instances with
  | [] => .error .emptySeries
  | ds0 :: rest =>
    match stack ((ds0 :: rest).map (fun ds => castSlice ds.pixelData)) with
    | .error e => .error e
    | .ok vol => .ok { volume := vol, metadata := mkMetadata ds0 (ds0 :: rest) }

/-- `load_dicom_series` (dicom_loader.py lines 9-107) over the set of
datasets read from the series directory, in filesystem encounter order:
reject an empty series, derive each slice's position key, sort stably
ascending by it, cast to int16, stack, and derive metadata. -/
def load_dicom_series (files : List Dataset) : Except LoadError LoadResult :=
  if files.isEmpty then .error .emptySeries
  else assembleSorted (sortByZ files)

/-- Errors in the resampler, one constructor per raise site:
`unsupportedRank` is the `ValueError("Unexpected volume shape: ...")` of
resampling.py line 43; `spacingRankMismatch` is the `ValueError` Python
raises when unpacking a spacing tuple whose length is not 3
(resampling.py lines 45-46); `zeroDivisionFailure` is the
`ZeroDivisionError` of dividing a spacing component by a zero target
component (resampling.py lines 49-53); `negativeDimension` is the
`ValueError` numpy raises when `scipy.ndimage.zoom` is asked for a negative
output extent; `zoomFactorMismatch` is the (unreachable) post-zoom check of
resampling.py lines 58-61. -/
inductive ResampleError where
  | unsupportedRank
  | spacingRankMismatch
  | zeroDivisionFailure
  | negativeDimension
  | zoomFactorMismatch
deriving DecidableEq, Repr

/-- Python's `int(round(x))` on an exact value: round half to even. -/
def pyRound (q : ℚ) : ℤ :=
  if q - ⌊q⌋ < 1 / 2 then ⌊q⌋
  else if (1 : ℚ) / 2 < q - ⌊q⌋ then ⌊q⌋ + 1
  else if ⌊q⌋ % 2 = 0 then ⌊q⌋ else ⌊q⌋ + 1

/-- The output extents `scipy.ndimage.zoom` computes:
`int(round(extent * factor))` per axis. -/
def zoomShape (shape : List ℕ) (factors : List ℚ) : List ℤ :=
  List.zipWith (fun (d : ℕ) (f : ℚ) => pyRound ((d : ℚ) * f)) shape factors

/-- The shape behaviour of `scipy.ndimage.zoom(volume, zoom=factors, ...)`
(resampling.py line 56): the output extent along each axis is
`round(extent * factor)`; numpy rejects a negative computed extent
(a zero extent yields an empty output without error). -/
def scipyZoom (shape : List ℕ) (factors : List ℚ) : Except ResampleError (List ℕ) :=
  let out := zoomShape shape factors
  if out.all (fun d => decide (0 ≤ d)) then .ok (out.map Int.toNat)
  else .error .negativeDimension

/-- Dimensionality normalization of `resample_isotropic` (resampling.py
lines 38-43): 2D becomes `(1, H, W)`; 4D with a leading size-1 axis is
squeezed; rank 3 passes through; anything else raises
`ValueError("Unexpected volume shape")`. -/
def normalizeShape (shape : List ℕ) : Except ResampleError (List ℕ) :=
  if shape.length = 2 then .ok (1 :: shape)
  else if shape.length = 4 ∧ shape.headD 0 = 1 then .ok shape.tail
  else if shape.length = 3 then .ok shape
  else .error .unsupportedRank

/-- `resample_isotropic` (resampling.py lines 7-63) at the level of shapes:
normalize dimensionality, unpack the two spacing triples (a non-3-tuple
fails to unpack), compute the per-axis zoom factors
`spacing[i] / new_spacing[i]` (a zero target component raises
`ZeroDivisionError`), call `zoom`, then run the (dead) factor-count check
and return. Interpolated values are cast to float32 and are outside this
shape-level embedding. -/
def resample_isotropic (shape : List ℕ) (spacing new_spacing : List ℚ) :
    Except ResampleError (List ℕ) :=
  match normalizeShape shape with
  | .error e => .error e
  | .ok vol =>
    match spacing, new_spacing with
    | [zs, ys, xs], [nz, ny, nx] =>
      if nz = 0 ∨ ny = 0 ∨ nx = 0 then .error .zeroDivisionFailure
      else
        let factors := [zs / nz, ys / ny, xs / nx]
        match scipyZoom vol factors with
        | .error e => .error e
        | .ok out =>
          if factors.length ≠ vol.length then .error .zoomFactorMismatch
          else .ok out
    | _, _ => .error .spacingRankMismatch

/-- Symbolic volume values flowing through `preprocess_series`, recording
which operations produced them: the raw assembled int16 volume, the result
of `normalize_volume`, the result of `resample_isotropic`, or an `np.load`
of a cached file. (The trailing `astype(np.float32)` casts do not change
this dataflow and are not recorded.) -/
inductive Vol where
  | raw (data : List (List (List ℤ)))
  | normalized (v : Vol) (modality : String)
  | resampled (v : Vol) (origSpacing newSpacing : List ℚ)
  | cachedFile (path : String)
deriving DecidableEq, Repr

/-- Values of the metadata dictionary `preprocess_series` returns. -/
inductive MetaValue where
  | qPair (a b : ℚ)
  | q (x : ℚ)
  | qList (xs : List ℚ)
  | strList (xs : List String)
  | str (s : String)
  | optStr (s : Option String)
deriving DecidableEq, Repr

/-- The metadata dictionary of a cold run: the full dictionary built by
`load_dicom_series` (dicom_loader.py lines 97-105). -/
def metaDict (md : Metadata) : List (String × MetaValue) :=
  [("PixelSpacing", .qPair md.pixelSpacing.1 md.pixelSpacing.2),
   ("SliceSpacing", .q md.sliceSpacing),
   ("SliceLocations", .qList md.sliceLocations),
   ("SOPInstanceUIDs", .strList md.sopInstanceUIDs),
   ("Modality", .str md.modality),
   ("SeriesInstanceUID", .optStr md.seriesInstanceUID),
   ("PatientID", .optStr md.patientID)]

/-- Python's `series_dir.rstrip("/")`: drop all trailing slashes. -/
def rstripSlashes (cs : List Char) : List Char :=
  (cs.reverse.dropWhile (fun c => c = '/')).reverse

/-- `os.path.basename`: the part after the last slash. -/
def basename (cs : List Char) : List Char :=
  (cs.reverse.takeWhile (fun c => c ≠ '/')).reverse

/-- `series_id = os.path.basename(series_dir.rstrip("/"))`
(pipeline.py line 57). -/
def seriesIdOf (dir : String) : String :=
  String.mk (basename (rstripSlashes dir.data))

/-- Pipeline errors: the `FileNotFoundError` for a missing series directory
(pipeline.py line 51), or an error propagated from the loader. -/
inductive PipeError where
  | seriesDirMissing
  | loadFailure (e : LoadError)
deriving DecidableEq, Repr

/-- What `preprocess_series` returns: a (symbolic) volume and the metadata
dictionary. -/
structure PipelineResult where
  volume : Vol
  metadata : List (String × MetaValue)
deriving DecidableEq, Repr

/-- `preprocess_series` (pipeline.py lines 14-92). `seriesDirExists` models
the `os.path.exists` probe, `files` the datasets read from the directory,
`cacheHit` the `os.path.exists(cache_path)` probe. On a cache hit the cached
array is returned with a metadata dictionary holding only
`SeriesInstanceUID`; otherwise the series is loaded, normalized, then
resampled, and the full loader metadata is returned. The `np.save` cache
write and the `astype(np.float32)` casts are side effects outside this
dataflow embedding. -/
def preprocess_series (seriesDirExists : Bool) (seriesDir : String)
    (files : List Dataset) (newSpacing : List ℚ) (cacheDir : String)
    (cacheHit : String → Bool) (useCache : Bool) :
    Except PipeError PipelineResult :=
  if seriesDirExists = false then .error .seriesDirMissing
  else
    let seriesId := seriesIdOf seriesDir
    let cachePath := cacheDir ++ "/" ++ seriesId ++ ".npy"
    if useCache && cacheHit cachePath then
      .ok { volume := .cachedFile cachePath
            metadata := [("SeriesInstanceUID", .str seriesId)] }
    else
      match load_dicom_series files with
      | .error e => .error (.loadFailure e)
      | .ok r =>
        let v1 := Vol.normalized (Vol.raw r.volume) r.metadata.modality
        let v2 := Vol.resampled v1
          [r.metadata.sliceSpacing, r.metadata.pixelSpacing.1, r.metadata.pixelSpacing.2]
          newSpacing
        .ok { volume := v2, metadata := metaDict r.metadata }



/-! ### Concrete fixtures used by the witness theorems -/

/-- A slice whose key comes from `ImagePositionPatient` (z = 2). -/
def sliceA : Dataset :=
  { imagePositionPatient := some (0, 0, 2)
    sliceLocation := none
    instanceNumber := none
    pixelData := [[1, 2], [3, 4]]
    sopInstanceUID := "a"
    pixelSpacing := none
    sliceThickness := none
    spacingBetweenSlices := none
    modality := some "CT"
    seriesInstanceUID := some "1.2"
    patientID := none }

/-- A slice whose key falls back to `SliceLocation` (1); it carries a pixel
value outside the int16 range and explicit spacing metadata. -/
def sliceB : Dataset :=
  { imagePositionPatient := none
    sliceLocation := some 1
    instanceNumber := none
    pixelData := [[5, 40000], [7, 8]]
    sopInstanceUID := "b"
    pixelSpacing := some (2, 3)
    sliceThickness := some 5
    spacingBetweenSlices := none
    modality := some "CT"
    seriesInstanceUID := some "1.2"
    patientID := none }

/-- A 1-by-1 slice, shape-inconsistent with `sliceA` and `sliceB`. -/
def sliceC : Dataset :=
  { imagePositionPatient := none
    sliceLocation := none
    instanceNumber := some 7
    pixelData := [[9]]
    sopInstanceUID := "c"
    pixelSpacing := none
    sliceThickness := none
    spacingBetweenSlices := none
    modality := none
    seriesInstanceUID := none
    patientID := none }

/-- A slice missing `SliceThickness` but carrying `SpacingBetweenSlices`. -/
def sliceD : Dataset :=
  { imagePositionPatient := none
    sliceLocation := none
    instanceNumber := some 1
    pixelData := [[0]]
    sopInstanceUID := "d"
    pixelSpacing := none
    sliceThickness := none
    spacingBetweenSlices := some 3
    modality := some "MR"
    seriesInstanceUID := none
    patientID := none }

/-- A two-slice series given in reverse spatial order (keys 2, then 1). -/
def fixtureSeries : List Dataset := [sliceA, sliceB]

/-- The value `load_dicom_series` computes on `fixtureSeries`: `sliceB`
(key 1) is ordered first, the 40000 pixel wraps to -25536. -/
def fixtureResult : LoadResult :=
  { volume := [[[5, -25536], [7, 8]], [[1, 2], [3, 4]]]
    metadata :=
      { pixelSpacing := (2, 3)
        sliceSpacing := 5
        sliceLocations := [1, 2]
        sopInstanceUIDs := ["b", "a"]
        modality := "CT"
        seriesInstanceUID := some "1.2"
        patientID := none } }

/-! ### General lemmas about the embedded operations -/

theorem int16_range (v : ℤ) : -32768 ≤ int16 v ∧ int16 v ≤ 32767 := by
  unfold int16
  have h1 : 0 ≤ (v + 32768) % 65536 := Int.emod_nonneg _ (by norm_num)
  have h2 : (v + 32768) % 65536 < 65536 := Int.emod_lt_of_pos _ (by norm_num)
  omega

theorem int16_eq_self {v : ℤ} (h1 : -32768 ≤ v) (h2 : v ≤ 32767) : int16 v = v := by
  unfold int16
  rw [Int.emod_eq_of_lt (by omega) (by omega)]
  omega

theorem int16_ne_self {v : ℤ} (h : v < -32768 ∨ 32767 < v) : int16 v ≠ v := by
  have := int16_range v
  omega

theorem sortByZ_perm (files : List Dataset) : (sortByZ files).Perm files :=
  List.perm_insertionSort zLE files

theorem sortByZ_sorted (files : List Dataset) : (sortByZ files).Pairwise zLE :=
  List.sorted_insertionSort zLE files

theorem sortByZ_stable (files : List Dataset) (k : ℚ) :
    (sortByZ files).filter (fun ds => decide (positionKey ds = k))
      = files.filter (fun ds => decide (positionKey ds = k)) := by
  set p : Dataset → Bool := fun ds => decide (positionKey ds = k) with hp
  have hmem : ∀ a ∈ files.filter p, positionKey a = k := by
    intro a ha
    have := (List.mem_filter.mp ha).2
    simpa [hp] using this
  have hsub : List.Sublist (files.filter p) (sortByZ files) := by
    apply List.sublist_insertionSort
    · exact List.pairwise_of_forall_mem_list fun a ha b hb => by
        show positionKey a ≤ positionKey b
        rw [hmem a ha, hmem b hb]
    · exact List.filter_sublist files
  have h2 : List.Sublist (files.filter p) ((sortByZ files).filter p) := by
    have h := hsub.filter p
    rwa [List.filter_eq_self.mpr (fun a ha => (List.mem_filter.mp ha).2)] at h
  have h3 : ((sortByZ files).filter p).length = (files.filter p).length :=
    ((sortByZ_perm files).filter p).length_eq
  exact (h2.eq_of_length h3.symm).symm

theorem sorted_eq_of_perm_distinct :
    ∀ {l₁ l₂ : List Dataset}, l₁.Perm l₂ → l₁.Pairwise zLE → l₂.Pairwise zLE →
      l₁.Pairwise (fun a b => positionKey a ≠ positionKey b) → l₁ = l₂ := by
  intro l₁
  induction l₁ with
  | nil =>
    intro l₂ hp _ _ _
    exact (hp.symm.eq_nil).symm
  | cons a t₁ ih =>
    intro l₂ hp hs₁ hs₂ hd
    cases l₂ with
    | nil => exact absurd hp.eq_nil (by simp)
    | cons b t₂ =>
      have hab : a = b := by
        by_contra hne
        have ha : a ∈ b :: t₂ := hp.subset (List.mem_cons_self a t₁)
        have hb : b ∈ a :: t₁ := hp.symm.subset (List.mem_cons_self b t₂)
        have ha' : a ∈ t₂ := by
          rcases List.mem_cons.mp ha with h | h
          · exact absurd h hne
          · exact h
        have hb' : b ∈ t₁ := by
          rcases List.mem_cons.mp hb with h | h
          · exact absurd h.symm hne
          · exact h
        have h₁ : zLE a b := (List.pairwise_cons.mp hs₁).1 b hb'
        have h₂ : zLE b a := (List.pairwise_cons.mp hs₂).1 a ha'
        have hne' : positionKey a ≠ positionKey b := (List.pairwise_cons.mp hd).1 b hb'
        exact hne' (le_antisymm h₁ h₂)
      subst hab
      have ht : t₁ = t₂ := ih hp.cons_inv (List.pairwise_cons.mp hs₁).2
        (List.pairwise_cons.mp hs₂).2 (List.pairwise_cons.mp hd).2
      rw [ht]

theorem sortByZ_reverse_eq (files : List Dataset)
    (hd : files.Pairwise fun a b => positionKey a ≠ positionKey b) :
    sortByZ files.reverse = sortByZ files := by
  apply sorted_eq_of_perm_distinct
  · exact ((sortByZ_perm files.reverse).trans (List.reverse_perm files)).trans
      (sortByZ_perm files).symm
  · exact sortByZ_sorted _
  · exact sortByZ_sorted _
  · exact (((sortByZ_perm files.reverse).trans
      (List.reverse_perm files)).pairwise_iff (fun h => Ne.symm h)).mpr hd

theorem stack_ok_eq {ss : List (List (List ℤ))} {vol : List (List (List ℤ))}
    (h : stack ss = .ok vol) : vol = ss := by
  cases ss with
  | nil => cases h
  | cons s0 rest =>
    simp only [stack] at h
    by_cases hc : (rest.all fun s => decide (shapeProfile s = shapeProfile s0)) = true
    · rw [if_pos hc] at h
      exact (Except.ok.inj h).symm
    · rw [if_neg hc] at h
      cases h

theorem load_ok_elim {files : List Dataset} {r : LoadResult}
    (h : load_dicom_series files = .ok r) :
    ∃ ds0 rest, sortByZ files = ds0 :: rest
      ∧ r.volume = (ds0 :: rest).map (fun ds => castSlice ds.pixelData)
      ∧ r.metadata = mkMetadata ds0 (ds0 :: rest) := by
  rw [load_dicom_series] at h
  split at h
  · cases h
  · cases hs : sortByZ files with
    | nil =>
      rw [hs] at h
      simp [assembleSorted] at h
    | cons ds0 rest =>
      rw [hs] at h
      simp only [assembleSorted] at h
      cases hst : stack ((ds0 :: rest).map fun ds => castSlice ds.pixelData) with
      | error e =>
        rw [hst] at h
        simp at h
      | ok vol =>
        have hv : vol = (ds0 :: rest).map fun ds => castSlice ds.pixelData := stack_ok_eq hst
        rw [hst] at h
        simp only [Except.ok.injEq] at h
        subst h
        exact ⟨ds0, rest, rfl, hv, rfl⟩

/-! ### Claim C2: stable ascending ordering by the fallback position key -/

/-- C2: the assembler derives each slice's position key by the per-slice
fallback priority (ImagePositionPatient z-component, else SliceLocation,
else InstanceNumber, else 0), sorts the slices ascending by that key with a
stable sort (ties keep encounter order: the sorted list restricted to any
single key value equals the input restricted to it), and the assembled
volume and per-slice metadata follow that order, which is non-decreasing in
the position key. -/
theorem assembler_sorts_slices_stably (files : List Dataset) (r : LoadResult)
    (h : load_dicom_series files = .ok r) :
    (∀ ds x y z, ds.imagePositionPatient = some (x, y, z) → positionKey ds = z)
    ∧ (∀ ds l, ds.imagePositionPatient = none → ds.sliceLocation = some l →
        positionKey ds = l)
    ∧ (∀ ds n, ds.imagePositionPatient = none → ds.sliceLocation = none →
        ds.instanceNumber = some n → positionKey ds = n)
    ∧ (∀ ds, ds.imagePositionPatient = none → ds.sliceLocation = none →
        ds.instanceNumber = none → positionKey ds = 0)
    ∧ r.volume = (sortByZ files).map (fun ds => castSlice ds.pixelData)
    ∧ r.metadata.sliceLocations = (sortByZ files).map positionKey
    ∧ r.metadata.sliceLocations.Sorted (· ≤ ·)
    ∧ (sortByZ files).Perm files
    ∧ ∀ k : ℚ, (sortByZ files).filter (fun ds => decide (positionKey ds = k))
        = files.filter (fun ds => decide (positionKey ds = k)) := by
  obtain ⟨ds0, rest, hs, hvol, hmd⟩ := load_ok_elim h
  refine ⟨?_, ?_, ?_, ?_, ?_, ?_, ?_, sortByZ_perm files, sortByZ_stable files⟩
  · intro ds x y z hip
    simp [positionKey, hip]
  · intro ds l hip hloc
    simp [positionKey, hip, hloc]
  · intro ds n hip hloc hnum
    simp [positionKey, hip, hloc, hnum]
  · intro ds hip hloc hnum
    simp [positionKey, hip, hloc, hnum]
  · rw [hs]
    exact hvol
  · rw [hs, hmd]
    rfl
  · rw [hmd]
    show ((ds0 :: rest).map positionKey).Sorted (· ≤ ·)
    rw [← hs]
    exact (sortByZ_sorted files).map positionKey fun a b hab => hab

/-- Witness for C2 on a concrete two-slice series given against spatial
order: the result is as computed, its slice locations are sorted, and they
are the keys in sorted order. -/
theorem assembler_sorts_slices_stably_witness :
    load_dicom_series fixtureSeries = .ok fixtureResult
    ∧ fixtureResult.metadata.sliceLocations.Sorted (· ≤ ·)
    ∧ fixtureResult.metadata.sliceLocations = [1, 2] :=
  ⟨by rfl,
   (assembler_sorts_slices_stably fixtureSeries fixtureResult (by rfl)).2.2.2.2.2.2.1,
   by rfl⟩

/-! ### Claim C4: encounter-order independence for distinct keys -/

/-- C4: when the derived position keys are pairwise distinct, assembling the
slices in reversed encounter order produces the identical result (volume and
per-slice metadata alike). -/
theorem assembler_order_independent (files : List Dataset)
    (hd : files.Pairwise fun a b => positionKey a ≠ positionKey b) :
    load_dicom_series files.reverse = load_dicom_series files := by
  have hsort := sortByZ_reverse_eq files hd
  rw [load_dicom_series, load_dicom_series, hsort]
  have hemp : files.reverse.isEmpty = files.isEmpty := by
    cases files <;> simp
  rw [hemp]

/-- Witness for C4: the fixture series has distinct keys (2 and 1) and
loading it reversed gives the same result. -/
theorem assembler_order_independent_witness :
    List.Pairwise (fun a b => positionKey a ≠ positionKey b) fixtureSeries
    ∧ load_dicom_series fixtureSeries.reverse = load_dicom_series fixtureSeries :=
  ⟨by decide, assembler_order_independent fixtureSeries (by decide)⟩

/-! ### Claim C3: exact output shape, shape inconsistency is fatal -/

theorem shapeProfile_castSlice (p : List (List ℤ)) :
    shapeProfile (castSlice p) = shapeProfile p := by
  unfold shapeProfile castSlice
  simp [List.map_map, Function.comp_def]

theorem shapeProfile_rect {p : List (List ℤ)} {H W : ℕ} (hH : p.length = H)
    (hW : ∀ row ∈ p, row.length = W) :
    shapeProfile p = (H, List.replicate H W) := by
  unfold shapeProfile
  rw [Prod.mk.injEq]
  refine ⟨hH, ?_⟩
  rw [List.eq_replicate_iff]
  refine ⟨by simp [hH], ?_⟩
  intro b hb
  obtain ⟨row, hrow, rfl⟩ := List.mem_map.mp hb
  exact hW row hrow

theorem stack_all_ok {s0 : List (List ℤ)} {rest' : List (List (List ℤ))}
    (hc : rest'.all (fun s => decide (shapeProfile s = shapeProfile s0)) = true) :
    stack (s0 :: rest') = .ok (s0 :: rest') := by
  simp only [stack]
  rw [if_pos hc]

theorem stack_all_false {s0 : List (List ℤ)} {rest' : List (List (List ℤ))}
    (hc : rest'.all (fun s => decide (shapeProfile s = shapeProfile s0)) = false) :
    stack (s0 :: rest') = .error .inconsistentShape := by
  simp only [stack]
  rw [if_neg (by rw [hc]; exact Bool.false_ne_true)]

/-- C3: a series of decodable slices sharing height `H` and width `W`
assembles into a volume of shape exactly `(N, H, W)` with `N` the number of
input slices; a series containing two (nonempty) slices of differing height
or width fails with the inconsistent-shape error and yields no volume. -/
theorem assembler_shape_guarantee :
    (∀ (files : List Dataset) (H W : ℕ), files ≠ [] →
      (∀ ds ∈ files, ds.pixelData.length = H ∧ ∀ row ∈ ds.pixelData, row.length = W) →
      ∃ r, load_dicom_series files = .ok r
        ∧ r.volume.length = files.length
        ∧ (∀ s ∈ r.volume, s.length = H ∧ ∀ row ∈ s, row.length = W))
    ∧ (∀ (files : List Dataset) (ds1 ds2 : Dataset) (H1 W1 H2 W2 : ℕ),
      ds1 ∈ files → ds2 ∈ files → 0 < H1 → 0 < H2 →
      ds1.pixelData.length = H1 → (∀ row ∈ ds1.pixelData, row.length = W1) →
      ds2.pixelData.length = H2 → (∀ row ∈ ds2.pixelData, row.length = W2) →
      (H1, W1) ≠ (H2, W2) →
      load_dicom_series files = .error .inconsistentShape) := by
  constructor
  · intro files H W hne hrect
    rcases hss : sortByZ files with _ | ⟨ds0, rest⟩
    · exfalso
      have hlen := (sortByZ_perm files).length_eq
      rw [hss] at hlen
      exact hne (List.length_eq_zero.mp hlen.symm)
    · have hmem : ∀ ds ∈ sortByZ files, ds ∈ files :=
        fun ds hds => (sortByZ_perm files).subset hds
      have hprof : ∀ ds ∈ sortByZ files,
          shapeProfile (castSlice ds.pixelData) = (H, List.replicate H W) := by
        intro ds hds
        rw [shapeProfile_castSlice]
        exact shapeProfile_rect (hrect ds (hmem ds hds)).1 (hrect ds (hmem ds hds)).2
      have hcond : (rest.map fun ds => castSlice ds.pixelData).all
          (fun s => decide (shapeProfile s = shapeProfile (castSlice ds0.pixelData))) = true := by
        rw [List.all_eq_true]
        intro s hsmem
        obtain ⟨ds, hds, rfl⟩ := List.mem_map.mp hsmem
        apply decide_eq_true
        rw [hprof ds (by rw [hss]; exact List.mem_cons_of_mem _ hds),
          hprof ds0 (by rw [hss]; exact List.mem_cons_self ds0 rest)]
      refine ⟨⟨(ds0 :: rest).map fun ds => castSlice ds.pixelData,
        mkMetadata ds0 (ds0 :: rest)⟩, ?_, ?_, ?_⟩
      · rw [load_dicom_series, if_neg (by simp [List.isEmpty_iff, hne]), hss]
        simp only [assembleSorted, List.map_cons]
        rw [stack_all_ok hcond]
      · show ((ds0 :: rest).map fun ds => castSlice ds.pixelData).length = files.length
        rw [List.length_map, ← hss]
        exact (sortByZ_perm files).length_eq
      · intro s hsmem
        obtain ⟨ds, hds, rfl⟩ := List.mem_map.mp hsmem
        have hr := hrect ds (hmem ds (by rw [hss]; exact hds))
        constructor
        · simpa [castSlice] using hr.1
        · intro row hrow
          simp only [castSlice] at hrow
          obtain ⟨row0, hrow0, rfl⟩ := List.mem_map.mp hrow
          simpa using hr.2 row0 hrow0
  · intro files ds1 ds2 H1 W1 H2 W2 h1mem h2mem hH1 hH2 hL1 hW1 hL2 hW2 hdiff
    have hprof12 : shapeProfile ds1.pixelData ≠ shapeProfile ds2.pixelData := by
      rw [shapeProfile_rect hL1 hW1, shapeProfile_rect hL2 hW2]
      intro heq
      rw [Prod.mk.injEq] at heq
      obtain ⟨hH, hRep⟩ := heq
      subst hH
      apply hdiff
      rw [Prod.mk.injEq]
      refine ⟨rfl, ?_⟩
      cases H1 with
      | zero => omega
      | succ m =>
        rw [List.replicate_succ, List.replicate_succ] at hRep
        injection hRep with h1 _
    have hne' : files ≠ [] := by
      intro hfe
      rw [hfe] at h1mem
      cases h1mem
    rcases hss : sortByZ files with _ | ⟨ds0, rest⟩
    · exfalso
      have hmv := (sortByZ_perm files).symm.subset h1mem
      rw [hss] at hmv
      cases hmv
    · have hmem1 : ds1 ∈ ds0 :: rest := by
        rw [← hss]; exact (sortByZ_perm files).symm.subset h1mem
      have hmem2 : ds2 ∈ ds0 :: rest := by
        rw [← hss]; exact (sortByZ_perm files).symm.subset h2mem
      have hcond : (rest.map fun ds => castSlice ds.pixelData).all
          (fun s => decide (shapeProfile s = shapeProfile (castSlice ds0.pixelData))) = false := by
        by_contra hc
        rw [Bool.not_eq_false, List.all_eq_true] at hc
        have hall : ∀ ds ∈ ds0 :: rest,
            shapeProfile ds.pixelData = shapeProfile ds0.pixelData := by
          intro ds hds
          rcases List.mem_cons.mp hds with rfl | hds'
          · rfl
          · have hx := of_decide_eq_true
              (hc (castSlice ds.pixelData) (List.mem_map_of_mem _ hds'))
            rwa [shapeProfile_castSlice, shapeProfile_castSlice] at hx
        exact hprof12 ((hall ds1 hmem1).trans (hall ds2 hmem2).symm)
      rw [load_dicom_series, if_neg (by simp [List.isEmpty_iff, hne']), hss]
      simp only [assembleSorted, List.map_cons]
      rw [stack_all_false hcond]

/-- Witness for C3: the two 2-by-2 fixture slices assemble into a 2-by-2-by-2
volume; adding the 1-by-1 slice `sliceC` makes assembly fail with the
inconsistent-shape error. -/
theorem assembler_shape_guarantee_witness :
    (∃ r, load_dicom_series fixtureSeries = .ok r
      ∧ r.volume.length = 2
      ∧ (∀ s ∈ r.volume, s.length = 2 ∧ ∀ row ∈ s, row.length = 2))
    ∧ load_dicom_series [sliceA, sliceB, sliceC] = .error .inconsistentShape :=
  ⟨assembler_shape_guarantee.1 fixtureSeries 2 2 (by decide) (by decide),
   assembler_shape_guarantee.2 [sliceA, sliceB, sliceC] sliceA sliceC 2 2 1 1
     (by decide) (by decide) (by decide) (by decide) (by decide) (by decide)
     (by decide) (by decide) (by decide)⟩

/-! ### Claim C7: spacing derivation from the first slice -/

/-- C7: for an assembled series whose sorted order starts with `ds0`, the
through-plane spacing is `SliceThickness` when present, else
`SpacingBetweenSlices` when present, else 1; the in-plane spacing is `ds0`'s
`PixelSpacing`, defaulting to `(1, 1)` when absent. -/
theorem assembler_spacing_fallback (files : List Dataset) (ds0 : Dataset)
    (rest : List Dataset) (r : LoadResult)
    (hs : sortByZ files = ds0 :: rest)
    (h : load_dicom_series files = .ok r) :
    (∀ t, ds0.sliceThickness = some t → r.metadata.sliceSpacing = t)
    ∧ (∀ s, ds0.sliceThickness = none → ds0.spacingBetweenSlices = some s →
        r.metadata.sliceSpacing = s)
    ∧ (ds0.sliceThickness = none → ds0.spacingBetweenSlices = none →
        r.metadata.sliceSpacing = 1)
    ∧ (∀ p, ds0.pixelSpacing = some p → r.metadata.pixelSpacing = p)
    ∧ (ds0.pixelSpacing = none → r.metadata.pixelSpacing = (1, 1)) := by
  obtain ⟨ds0', rest', hs', hvol, hmd⟩ := load_ok_elim h
  rw [hs] at hs'
  obtain ⟨rfl, rfl⟩ : ds0' = ds0 ∧ rest' = rest := by
    injection hs' with h1 h2
    exact ⟨h1.symm, h2.symm⟩
  refine ⟨?_, ?_, ?_, ?_, ?_⟩
  · intro t ht
    rw [hmd]
    simp [mkMetadata, throughPlaneSpacing, ht]
  · intro s ht hsp
    rw [hmd]
    simp [mkMetadata, throughPlaneSpacing, ht, hsp]
  · intro ht hsp
    rw [hmd]
    simp [mkMetadata, throughPlaneSpacing, ht, hsp]
  · intro p hp
    rw [hmd]
    simp [mkMetadata, hp]
  · intro hp
    rw [hmd]
    simp [mkMetadata, hp]

/-- Witness for C7: in the fixture series the first sorted slice is `sliceB`
(thickness 5), so the derived through-plane spacing is 5 and the in-plane
spacing is its `(2, 3)`; a singleton series of `sliceD` (no thickness,
spacing-between-slices 3) derives through-plane spacing 3. -/
theorem assembler_spacing_fallback_witness :
    fixtureResult.metadata.sliceSpacing = 5
    ∧ fixtureResult.metadata.pixelSpacing = (2, 3)
    ∧ (∀ r, load_dicom_series [sliceD] = .ok r → r.metadata.sliceSpacing = 3) :=
  ⟨(assembler_spacing_fallback fixtureSeries sliceB [sliceA] fixtureResult
      (by rfl) (by rfl)).1 5 (by rfl),
   (assembler_spacing_fallback fixtureSeries sliceB [sliceA] fixtureResult
      (by rfl) (by rfl)).2.2.2.1 (2, 3) (by rfl),
   fun r hr => (assembler_spacing_fallback [sliceD] sliceD [] r (by rfl) hr).2.1
     3 (by rfl) (by rfl)⟩

/-! ### Claim C10: int16 cast of every stacked pixel -/

/-- C10: the assembler casts every decoded pixel to a 16-bit signed integer
before stacking: the assembled volume is the sorted slices elementwise
wrapped by `int16`, every stored value lies in `[-32768, 32767]`, values in
that range are preserved exactly, and values outside it are not. -/
theorem assembler_casts_int16 (files : List Dataset) (r : LoadResult)
    (h : load_dicom_series files = .ok r) :
    r.volume = (sortByZ files).map (fun ds => castSlice ds.pixelData)
    ∧ (∀ s ∈ r.volume, ∀ row ∈ s, ∀ v ∈ row, -32768 ≤ v ∧ v ≤ 32767)
    ∧ (∀ x : ℤ, -32768 ≤ x → x ≤ 32767 → int16 x = x)
    ∧ (∀ x : ℤ, x < -32768 ∨ 32767 < x → int16 x ≠ x) := by
  obtain ⟨ds0, rest, hs, hvol, _⟩ := load_ok_elim h
  refine ⟨by rw [hs]; exact hvol, ?_, fun x h1 h2 => int16_eq_self h1 h2,
    fun x hx => int16_ne_self hx⟩
  intro s hsmem row hrow v hv
  rw [hvol] at hsmem
  obtain ⟨ds, _, rfl⟩ := List.mem_map.mp hsmem
  simp only [castSlice] at hrow
  obtain ⟨row0, _, rfl⟩ := List.mem_map.mp hrow
  obtain ⟨v0, _, rfl⟩ := List.mem_map.mp hv
  exact int16_range v0

/-- Witness for C10: the fixture's 40000 pixel is stored as -25536 and every
stored value of the concrete volume is in int16 range. -/
theorem assembler_casts_int16_witness :
    (∀ s ∈ fixtureResult.volume, ∀ row ∈ s, ∀ v ∈ row, -32768 ≤ v ∧ v ≤ 32767)
    ∧ int16 40000 = -25536 :=
  ⟨(assembler_casts_int16 fixtureSeries fixtureResult (by rfl)).2.1, by decide⟩

/-! ### Resampler lemmas -/

theorem normalizeShape_three (A B C : ℕ) : normalizeShape [A, B, C] = .ok [A, B, C] := by
  simp [normalizeShape]

theorem pyRound_nonneg {q : ℚ} (hq : 0 ≤ q) : 0 ≤ pyRound q := by
  unfold pyRound
  have hf : (0 : ℤ) ≤ ⌊q⌋ := Int.floor_nonneg.mpr hq
  split
  · exact hf
  · split
    · omega
    · split
      · exact hf
      · omega

theorem resample_zero_axis_eval :
    resample_isotropic [10, 50, 50] [0, 1, 1] [1, 1, 1] = .ok [0, 50, 50] := by
  norm_num [resample_isotropic, normalizeShape, scipyZoom, zoomShape, pyRound]
  decide

/-! ### Claim C5: dimensionality normalization and rank errors -/

/-- C5: a 2D `(H, W)` input behaves as `(1, H, W)`; a 4D input with a
leading size-1 axis behaves as its squeeze; rank 1 or rank 5 input fails
with the unsupported-rank error; and for a rank-3 input a spacing tuple
whose length is not 3 fails with the spacing-rank-mismatch error (the
failure occurs at unpacking, before `zoom` is ever reached). -/
theorem resampler_rank_handling :
    (∀ (H W : ℕ) (sp nsp : List ℚ),
      resample_isotropic [H, W] sp nsp = resample_isotropic [1, H, W] sp nsp)
    ∧ (∀ (Z H W : ℕ) (sp nsp : List ℚ),
      resample_isotropic [1, Z, H, W] sp nsp = resample_isotropic [Z, H, W] sp nsp)
    ∧ (∀ (shape : List ℕ) (sp nsp : List ℚ), shape.length = 1 ∨ shape.length = 5 →
      resample_isotropic shape sp nsp = .error .unsupportedRank)
    ∧ (∀ (shape : List ℕ) (sp nsp : List ℚ), shape.length = 3 → sp.length ≠ 3 →
      resample_isotropic shape sp nsp = .error .spacingRankMismatch) := by
  have hnorm2 : ∀ (H W : ℕ), normalizeShape [H, W] = .ok [1, H, W] := by
    intro H W
    simp [normalizeShape]
  have hnorm4 : ∀ (Z H W : ℕ), normalizeShape [1, Z, H, W] = .ok [Z, H, W] := by
    intro Z H W
    simp [normalizeShape]
  refine ⟨?_, ?_, ?_, ?_⟩
  · intro H W sp nsp
    simp only [resample_isotropic, hnorm2, normalizeShape_three]
  · intro Z H W sp nsp
    simp only [resample_isotropic, hnorm4, normalizeShape_three]
  · intro shape sp nsp hlen
    have hns : normalizeShape shape = .error .unsupportedRank := by
      unfold normalizeShape
      rcases hlen with h | h <;>
        rw [if_neg (by omega), if_neg (by rintro ⟨h4, _⟩; omega), if_neg (by omega)]
    simp only [resample_isotropic, hns]
  · intro shape sp nsp hlen hsp
    obtain ⟨a, b, c, rfl⟩ := List.length_eq_three.mp hlen
    simp only [resample_isotropic, normalizeShape_three]
    rcases sp with _ | ⟨x, _ | ⟨y, _ | ⟨z, _ | ⟨w, t⟩⟩⟩⟩
    · rfl
    · rfl
    · rfl
    · exact absurd rfl hsp
    · rfl

/-- Witness for C5: a 1D array is rejected as unsupported rank; a length-2
spacing for a 3D array is rejected as a spacing-rank mismatch. -/
theorem resampler_rank_handling_witness :
    resample_isotropic [7] [1, 1, 1] [1, 1, 1] = .error .unsupportedRank
    ∧ resample_isotropic [4, 5, 6] [1, 1] [1, 1, 1] = .error .spacingRankMismatch :=
  ⟨resampler_rank_handling.2.2.1 [7] [1, 1, 1] [1, 1, 1] (Or.inl rfl),
   resampler_rank_handling.2.2.2 [4, 5, 6] [1, 1] [1, 1, 1] rfl (by decide)⟩

/-! ### Claim C6: the resampling scale law for the output shape -/

/-- C6: for a 3D volume with strictly positive original and target spacing,
the output extent along each axis is
`round(extent * original_spacing / target_spacing)` (Python banker's
rounding); in particular spacing (2,1,1) to (1,1,1) takes shape (10,50,50)
to (20,50,50). -/
theorem resampler_shape_law :
    (∀ (d₁ d₂ d₃ : ℕ) (s₁ s₂ s₃ n₁ n₂ n₃ : ℚ),
      0 < s₁ → 0 < s₂ → 0 < s₃ → 0 < n₁ → 0 < n₂ → 0 < n₃ →
      resample_isotropic [d₁, d₂, d₃] [s₁, s₂, s₃] [n₁, n₂, n₃] =
        .ok [(pyRound ((d₁ : ℚ) * (s₁ / n₁))).toNat,
             (pyRound ((d₂ : ℚ) * (s₂ / n₂))).toNat,
             (pyRound ((d₃ : ℚ) * (s₃ / n₃))).toNat])
    ∧ resample_isotropic [10, 50, 50] [2, 1, 1] [1, 1, 1] = .ok [20, 50, 50] := by
  have main : ∀ (d₁ d₂ d₃ : ℕ) (s₁ s₂ s₃ n₁ n₂ n₃ : ℚ),
      0 < s₁ → 0 < s₂ → 0 < s₃ → 0 < n₁ → 0 < n₂ → 0 < n₃ →
      resample_isotropic [d₁, d₂, d₃] [s₁, s₂, s₃] [n₁, n₂, n₃] =
        .ok [(pyRound ((d₁ : ℚ) * (s₁ / n₁))).toNat,
             (pyRound ((d₂ : ℚ) * (s₂ / n₂))).toNat,
             (pyRound ((d₃ : ℚ) * (s₃ / n₃))).toNat] := by
    intro d₁ d₂ d₃ s₁ s₂ s₃ n₁ n₂ n₃ hs₁ hs₂ hs₃ hn₁ hn₂ hn₃
    have hq₁ : (0 : ℚ) ≤ (d₁ : ℚ) * (s₁ / n₁) :=
      mul_nonneg (Nat.cast_nonneg d₁) (le_of_lt (div_pos hs₁ hn₁))
    have hq₂ : (0 : ℚ) ≤ (d₂ : ℚ) * (s₂ / n₂) :=
      mul_nonneg (Nat.cast_nonneg d₂) (le_of_lt (div_pos hs₂ hn₂))
    have hq₃ : (0 : ℚ) ≤ (d₃ : ℚ) * (s₃ / n₃) :=
      mul_nonneg (Nat.cast_nonneg d₃) (le_of_lt (div_pos hs₃ hn₃))
    have hzoom : scipyZoom [d₁, d₂, d₃] [s₁ / n₁, s₂ / n₂, s₃ / n₃] =
        .ok [(pyRound ((d₁ : ℚ) * (s₁ / n₁))).toNat,
             (pyRound ((d₂ : ℚ) * (s₂ / n₂))).toNat,
             (pyRound ((d₃ : ℚ) * (s₃ / n₃))).toNat] := by
      unfold scipyZoom zoomShape
      rw [if_pos ?hall]
      case hall =>
        simp only [List.zipWith, List.all_cons, List.all_nil, Bool.and_true,
          Bool.and_eq_true, decide_eq_true_eq]
        exact ⟨pyRound_nonneg hq₁, pyRound_nonneg hq₂, pyRound_nonneg hq₃⟩
      rfl
    have hzero : ¬ (n₁ = 0 ∨ n₂ = 0 ∨ n₃ = 0) := by
      rintro (h | h | h)
      · exact absurd h (ne_of_gt hn₁)
      · exact absurd h (ne_of_gt hn₂)
      · exact absurd h (ne_of_gt hn₃)
    simp only [resample_isotropic, normalizeShape_three]
    rw [if_neg hzero]
    simp only [hzoom]
    rw [if_neg (by simp)]
  refine ⟨main, ?_⟩
  have h := main 10 50 50 2 1 1 1 1 1 (by norm_num) (by norm_num) (by norm_num)
    (by norm_num) (by norm_num) (by norm_num)
  rw [h]
  norm_num [pyRound]
  decide

/-- Witness for C6: the theorem applied at shape (10,50,50), spacing
(2,1,1), target (1,1,1). -/
theorem resampler_shape_law_witness :
    resample_isotropic [10, 50, 50] [2, 1, 1] [1, 1, 1] =
      .ok [(pyRound ((10 : ℚ) * (2 / 1))).toNat,
           (pyRound ((50 : ℚ) * (1 / 1))).toNat,
           (pyRound ((50 : ℚ) * (1 / 1))).toNat] :=
  resampler_shape_law.1 10 50 50 2 1 1 1 1 1 (by decide) (by decide) (by decide)
    (by decide) (by decide) (by decide)

/-! ### Claim C1: no `InvalidSpacingError` exists in the resampler -/

/-- C1 is false on the code: `resample_isotropic` performs no spacing
validation at all. This counterexample refutes the claim as stated: the
original spacing (0, 1, 1) contains a component ≤ 0, yet resampling a
(10, 50, 50) volume succeeds and returns a (degenerate, empty) volume of
shape (0, 50, 50) rather than failing. -/
theorem resampler_spacing_claim_false :
    ¬ (∀ (shape : List ℕ) (sp nsp : List ℚ),
      ((∃ c ∈ sp, c ≤ 0) ∨ (∃ c ∈ nsp, c ≤ 0)) →
      ∀ out, resample_isotropic shape sp nsp ≠ .ok out) := by
  intro hclaim
  exact hclaim [10, 50, 50] [0, 1, 1] [1, 1, 1]
    (Or.inl ⟨0, by decide, le_refl 0⟩) [0, 50, 50] resample_zero_axis_eval

/-- C1 (amended): the resampler performs no spacing validation and never
raises a typed invalid-spacing error. A non-positive original-spacing
component can succeed: spacing (0,1,1) on shape (10,50,50) returns the
degenerate volume shape (0,50,50). Only a zero target-spacing component
makes the zoom-factor computation itself fail, with an untyped
division-by-zero error. -/
theorem resampler_no_spacing_validation :
    resample_isotropic [10, 50, 50] [0, 1, 1] [1, 1, 1] = .ok [0, 50, 50]
    ∧ (∀ (d₁ d₂ d₃ : ℕ) (zs ys xs nz ny nx : ℚ), nz = 0 ∨ ny = 0 ∨ nx = 0 →
      resample_isotropic [d₁, d₂, d₃] [zs, ys, xs] [nz, ny, nx] =
        .error .zeroDivisionFailure) := by
  refine ⟨resample_zero_axis_eval, ?_⟩
  intro d₁ d₂ d₃ zs ys xs nz ny nx hzero
  simp only [resample_isotropic, normalizeShape_three]
  rw [if_pos hzero]

/-- Witness for the amended C1: a zero target component fails with the
division-by-zero error. -/
theorem resampler_no_spacing_validation_witness :
    resample_isotropic [10, 50, 50] [2, 1, 1] [0, 1, 1] =
      .error .zeroDivisionFailure :=
  resampler_no_spacing_validation.2 10 50 50 2 1 1 0 1 1 (Or.inl rfl)

/-! ### Claim C9: the cache-hit fast path -/

/-- C9: with caching enabled and an existing cache file, `preprocess_series`
returns the cached array (no assembly, normalization or resampling is
recorded in the returned value) and a metadata dictionary whose only key is
`SeriesInstanceUID`, set to the series directory's basename; the modality,
spacing, slice-location and per-slice identifier entries of a cold run are
absent. -/
theorem pipeline_cache_hit_path (seriesDir cacheDir : String) (files : List Dataset)
    (nsp : List ℚ) (cacheHit : String → Bool)
    (h : cacheHit (cacheDir ++ "/" ++ seriesIdOf seriesDir ++ ".npy") = true) :
    preprocess_series true seriesDir files nsp cacheDir cacheHit true =
      .ok { volume := .cachedFile (cacheDir ++ "/" ++ seriesIdOf seriesDir ++ ".npy")
            metadata := [("SeriesInstanceUID", .str (seriesIdOf seriesDir))] }
    ∧ ∀ res, preprocess_series true seriesDir files nsp cacheDir cacheHit true = .ok res →
        (res.metadata.map Prod.fst = ["SeriesInstanceUID"]
         ∧ "Modality" ∉ res.metadata.map Prod.fst
         ∧ "PixelSpacing" ∉ res.metadata.map Prod.fst
         ∧ "SliceSpacing" ∉ res.metadata.map Prod.fst
         ∧ "SliceLocations" ∉ res.metadata.map Prod.fst
         ∧ "SOPInstanceUIDs" ∉ res.metadata.map Prod.fst
         ∧ res.volume = .cachedFile (cacheDir ++ "/" ++ seriesIdOf seriesDir ++ ".npy")) := by
  have heq : preprocess_series true seriesDir files nsp cacheDir cacheHit true =
      .ok { volume := .cachedFile (cacheDir ++ "/" ++ seriesIdOf seriesDir ++ ".npy")
            metadata := [("SeriesInstanceUID", .str (seriesIdOf seriesDir))] } := by
    simp only [preprocess_series]
    rw [if_neg (by simp), if_pos (by simp [h])]
  refine ⟨heq, ?_⟩
  intro res hres
  rw [heq] at hres
  cases hres
  refine ⟨rfl, by simp, by simp, by simp, by simp, by simp, rfl⟩

/-- Witness for C9: a cache probe that always hits. -/
theorem pipeline_cache_hit_path_witness :
    preprocess_series true "data/series9" [] [1, 1, 1] "cache" (fun _ => true) true =
      .ok { volume := .cachedFile ("cache" ++ "/" ++ seriesIdOf "data/series9" ++ ".npy")
            metadata := [("SeriesInstanceUID", .str (seriesIdOf "data/series9"))] } :=
  (pipeline_cache_hit_path "data/series9" "cache" [] [1, 1, 1] (fun _ => true) rfl).1

/-! ### Claim C8: cold runs normalize before resampling -/

/-- C8: on a cold run (caching disabled or cache miss) the pipeline applies
normalization to the assembled raw volume and resampling to the normalized
volume — the returned volume is `resampled (normalized (raw ...))` and is
never of the form `normalized (resampled ...)`. -/
theorem pipeline_normalize_before_resample (seriesDir cacheDir : String)
    (files : List Dataset) (nsp : List ℚ) (cacheHit : String → Bool)
    (useCache : Bool) (r : LoadResult)
    (hmiss : (useCache && cacheHit (cacheDir ++ "/" ++ seriesIdOf seriesDir ++ ".npy")) = false)
    (hload : load_dicom_series files = .ok r) :
    preprocess_series true seriesDir files nsp cacheDir cacheHit useCache =
      .ok { volume := Vol.resampled
              (Vol.normalized (Vol.raw r.volume) r.metadata.modality)
              [r.metadata.sliceSpacing, r.metadata.pixelSpacing.1, r.metadata.pixelSpacing.2]
              nsp
            metadata := metaDict r.metadata }
    ∧ (∀ v m, Vol.resampled
        (Vol.normalized (Vol.raw r.volume) r.metadata.modality)
        [r.metadata.sliceSpacing, r.metadata.pixelSpacing.1, r.metadata.pixelSpacing.2]
        nsp ≠ Vol.normalized v m) := by
  constructor
  · simp only [preprocess_series]
    rw [if_neg (by simp), if_neg (by simp [hmiss]), hload]
  · intro v m hcontra
    exact Vol.noConfusion hcontra

/-- Witness for C8: a cold run on the concrete fixture series returns the
resample-after-normalize composition. -/
theorem pipeline_normalize_before_resample_witness :
    preprocess_series true "data/series9" fixtureSeries [1, 1, 1] "cache"
        (fun _ => false) false =
      .ok { volume := Vol.resampled
              (Vol.normalized (Vol.raw fixtureResult.volume) fixtureResult.metadata.modality)
              [fixtureResult.metadata.sliceSpacing, fixtureResult.metadata.pixelSpacing.1,
                fixtureResult.metadata.pixelSpacing.2] [1, 1, 1]
            metadata := metaDict fixtureResult.metadata } :=
  (pipeline_normalize_before_resample "data/series9" "cache" fixtureSeries [1, 1, 1]
    (fun _ => false) false fixtureResult rfl (by rfl)).1

end RSNA
